import Mathlib

/-
Verification of the two-pass DLX assembler (dlxparser.py, instructions.py,
directives.py) against its natural-language specification.

The embedding models Python values directly: machine words are Nat with
explicit masking (Python's `x & 0xffff` on an int is `x % 2 ^ 16`, also for
negative x), resolved immediates are Int, raised exceptions are `Except Err`,
and the module-global SYMTAB dictionary is threaded explicitly as a value so
that its lifetime across invocations can be stated.  The external pieces the
engine only consumes - the opcode registry loaded from the Itypes/Jtypes/
Rtypes files, the regular-expression operand matcher, and IEEE-754 float
packing - are fields of an `Env` parameter.
-/

/-! String utilities mirroring the Python primitives used by the parser.
They operate on `List Char`; Python 2 byte strings are modelled as Lean
strings (the inputs exercised are ASCII). -/

/-- Drop the characters satisfying `p` from both ends (Python `str.strip`). -/
def stripEnds (p : Char → Bool) (cs : List Char) : List Char :=
  ((cs.dropWhile p).reverse.dropWhile p).reverse

/-- Python `line.strip()` (whitespace at both ends). -/
def pyStrip (s : String) : String := String.mk (stripEnds Char.isWhitespace s.toList)

/-- Python `token.strip(":")` used when a label is stored in the symbol table. -/
def stripColons (s : String) : String := String.mk (stripEnds (fun c => c == ':') s.toList)

/-- Python `asciiword.strip('"')` used by the .asciiz directive. -/
def stripQuotes (s : String) : String := String.mk (stripEnds (fun c => c == '"') s.toList)

/-- Python `val.strip(', ')` used by the numeric data directives. -/
def stripCommaSpace (s : String) : String :=
  String.mk (stripEnds (fun c => c == ',' || c == ' ') s.toList)

/-- Split a character list at every newline. Python `splitlines` drops a
final empty segment; the extra empty segment produced here is skipped by the
first pass exactly like a blank line, so the behaviour is unchanged. -/
def splitNl : List Char → List Char → List (List Char)
  | [], acc => [acc.reverse]
  | '\n' :: rest, acc => acc.reverse :: splitNl rest []
  | c :: rest, acc => splitNl rest (c :: acc)

/-- Python `inputdata.splitlines()`. -/
def splitLinesPy (s : String) : List String := (splitNl s.toList []).map String.mk

/-- Helper for whitespace tokenisation. -/
def wordsAux : List Char → List Char → List (List Char)
  | [], acc => if acc.isEmpty then [] else [acc.reverse]
  | c :: rest, acc =>
    if c.isWhitespace then
      if acc.isEmpty then wordsAux rest [] else acc.reverse :: wordsAux rest []
    else wordsAux rest (c :: acc)

/-- Python `line.split()`: whitespace-separated tokens, empties dropped. -/
def pySplitWs (s : String) : List String := (wordsAux s.toList []).map String.mk

/-- Python `line.partition(";")[0]`: the prefix before the first semicolon. -/
def takeUntilSemi (s : String) : String := String.mk (s.toList.takeWhile (fun c => c ≠ ';'))

/-- Join character lists with a separator (Python `sep.join`). -/
def joinWith (sep : List Char) : List (List Char) → List Char
  | [] => []
  | [x] => x
  | x :: xs => x ++ sep ++ joinWith sep xs

/-- Python `" ".join(argtokens)`. -/
def intercalateSpace (l : List String) : String :=
  String.mk (joinWith [' '] (l.map String.toList))

/-- Python `"\n".join(outputdata)`. -/
def joinNewlines (l : List String) : String :=
  String.mk (joinWith ['\n'] (l.map String.toList))

/-- Helper splitting at each non-overlapping occurrence of ", ". -/
def splitCommaSpaceAux : List Char → List Char → List (List Char)
  | [], acc => [acc.reverse]
  | ',' :: ' ' :: rest, acc => acc.reverse :: splitCommaSpaceAux rest []
  | c :: rest, acc => splitCommaSpaceAux rest (c :: acc)

/-- Python `s.split(", ")` used to re-split directive arguments. -/
def splitCommaSpaceStr (s : String) : List String :=
  (splitCommaSpaceAux s.toList []).map String.mk

/-- Whether "0x" occurs as a substring (Python `'0x' in val`). -/
def hasSub0x : List Char → Bool
  | [] => false
  | [_] => false
  | c1 :: c2 :: rest => (c1 == '0' && c2 == 'x') || hasSub0x (c2 :: rest)

/-! Numeric parsing and formatting. -/

/-- Value of a decimal digit string (no sign), as accumulated by `int`. -/
def decVal (cs : List Char) : Nat := cs.foldl (fun a c => a * 10 + (c.toNat - 48)) 0

/-- Parse a nonempty all-digit character list. -/
def decDigits (cs : List Char) : Option Nat :=
  if cs.isEmpty then none
  else if cs.all Char.isDigit then some (decVal cs) else none

/-- Python 2 `int(s)`: optional surrounding whitespace, optional sign, then
decimal digits; anything else raises ValueError (modelled as `none`). -/
def pyInt (s : String) : Option Int :=
  let cs := stripEnds Char.isWhitespace s.toList
  if cs.head? == some '-' then (decDigits cs.tail).map (fun n => -(n : Int))
  else if cs.head? == some '+' then (decDigits cs.tail).map (fun n => (n : Int))
  else (decDigits cs).map (fun n => (n : Int))

/-- Value of one hexadecimal digit. -/
def hexVal (c : Char) : Option Nat :=
  if c.isDigit then some (c.toNat - 48)
  else if 'a' ≤ c && c ≤ 'f' then some (c.toNat - 87)
  else if 'A' ≤ c && c ≤ 'F' then some (c.toNat - 55)
  else none

/-- Parse a nonempty hexadecimal digit list. -/
def hexDigitsOpt (cs : List Char) : Option Nat :=
  if cs.isEmpty then none
  else cs.foldl (fun acc c =>
    match acc, hexVal c with
    | some a, some v => some (a * 16 + v)
    | _, _ => none) (some 0)

/-- Drop a leading "0x" or "0X" if present. -/
def dropHex0x : List Char → List Char
  | '0' :: 'x' :: rest => rest
  | '0' :: 'X' :: rest => rest
  | cs => cs

/-- Python 2 `int(s, 16)`: optional sign, optional 0x, hex digits. -/
def pyIntHex (s : String) : Option Int :=
  let cs := stripEnds Char.isWhitespace s.toList
  if cs.head? == some '-' then (hexDigitsOpt (dropHex0x cs.tail)).map (fun n => -(n : Int))
  else if cs.head? == some '+' then (hexDigitsOpt (dropHex0x cs.tail)).map (fun n => (n : Int))
  else (hexDigitsOpt (dropHex0x cs)).map (fun n => (n : Int))

/-- Python 2 `str.isdigit`: nonempty and all characters are decimal digits. -/
def pyIsdigit (s : String) : Bool := !s.toList.isEmpty && s.toList.all Char.isDigit

/-- Format a number the way `"0:08x".format` does: lowercase hexadecimal,
zero-padded on the left to at least eight digits. -/
def hex8 (n : Nat) : String :=
  let ds := Nat.toDigits 16 n
  String.mk (List.replicate (8 - ds.length) '0' ++ ds)

/-- Two lowercase hex digits of one byte (binascii.hexlify of one char). -/
def byteHex (n : Nat) : List Char := [Nat.digitChar (n % 256 / 16), Nat.digitChar (n % 16)]

/-- Python `(asciiword + chr(0)).encode('hex')`: hex of the bytes of the
string followed by the null terminator. -/
def hexlifyz (s : String) : String :=
  String.mk (((s.toList ++ [Char.ofNat 0]).map (fun c => byteHex c.toNat)).flatten)

/-! The data model. -/

/-- Exceptions the Python code can raise while assembling. -/
inductive Err
  /-- Exception "Duplicate symbol: t" raised by matchlabel. -/
  | duplicateSymbol (t : String)
  /-- KeyError from `SYMTAB lookup` of an unresolved symbolic operand. -/
  | undefinedSymbol (name : String)
  /-- Exception "Expected directive or opcode." from the first pass. -/
  | expectedDirectiveOrOpcode
  /-- Exception "t is not a valid opcode." from opcodehandler. -/
  | notValidOpcode (t : String)
  /-- TypeError: keyword arguments not accepted by a constructor, or the
  base-class nextaddresses called with a missing datasize argument. -/
  | typeError
  /-- ValueError from `int` on a malformed literal. -/
  | valueError
  /-- IndexError from indexing an empty argument list. -/
  | indexError
  /-- struct.error from packing an out-of-range value. -/
  | structError
  /-- KeyError from a directive-table lookup. -/
  | keyError
  /-- UnboundLocalError when no branch of opcodehandler assigned the object. -/
  | unboundLocal
deriving DecidableEq, Repr

/-- An immediate/target operand: either already an int, or the raw text kept
until encode time (Python stores either type in the same attribute). -/
inductive Imm
  | lit (i : Int)
  | sym (s : String)
deriving DecidableEq, Repr

/-- Named operand values extracted by parseoperands (each regex returns a
subset of these keys). -/
structure Operands where
  rdest : Option Nat
  rs1 : Option Nat
  rs2 : Option Nat
  immediate : Option Imm
  name : Option String
deriving DecidableEq, Repr

/-- Empty operand set (no regex matched). -/
def Operands.empty : Operands := ⟨none, none, none, none, none⟩

/-- Directive statements: the directive kind plus its raw argument tokens,
exactly as the DIRECTIVES table maps names to classes. -/
inductive Directive
  | text (args : List String)
  | data (args : List String)
  | align (args : List String)
  | asciiz (args : List String)
  | double (args : List String)
  | flt (args : List String)
  | word (args : List String)
  | space (args : List String)
deriving DecidableEq, Repr

/-- Instruction statements.  Fields are the values STORED on the object by
the constructor (for Branch these are the already-swapped registers, see
`Branch.init`).  Trap instances carry no behaviour of their own beyond their
constructor, so they are represented as the `ityp` variant they inherit
everything from. -/
inductive Instr
  | ityp (opcode rs1 rdest : Nat) (immediate : Imm)
  | branch (opcode rs1 rdest : Nat) (immediate : Imm)
  | jtyp (opcode : Nat) (name : Imm)
  | ralu (opcode func rs1 rs2 rdest : Nat)
  | rfpu (opcode func rs1 rs2 rdest : Nat)
deriving DecidableEq, Repr

/-- One line object of the first pass: an instruction or a directive. -/
inductive Stmt
  | instr (i : Instr)
  | dir (d : Directive)
deriving DecidableEq, Repr

/-- Result of an encode call: a single hex string, or one hex string per
datum (directives with multiple items). Python's falsy "" and [] suppress
output lines. -/
inductive EncRes
  | str (s : String)
  | list (l : List String)
deriving DecidableEq, Repr

/-- The module-global SYMTAB dictionary.  Insertion shadows, lookup takes the
most recent binding - the observable behaviour of a Python dict under
assignment and membership tests. -/
abbrev SymTab := List (String × Nat)

/-- Dictionary lookup. -/
def symLookup (tab : SymTab) (k : String) : Option Nat := List.lookup k tab

/-- Dictionary assignment `SYMTAB k = v`. -/
def symInsert (k : String) (v : Nat) (tab : SymTab) : SymTab := (k, v) :: tab

/-- Dictionary membership `k in SYMTAB`. -/
def symContains (tab : SymTab) (k : String) : Bool := (symLookup tab k).isSome

/-- External collaborators consumed by the engine: the opcode registry read
from the Itypes/Jtypes/Rtypes files, the regex operand matcher, and the
IEEE-754 packers of the .float/.double directives (floating point is kept
abstract). -/
structure Env where
  iops : List (String × Nat)
  jops : List (String × Nat)
  rops : List (String × Nat)
  rfuncs : List (String × Nat)
  parseoperands : String → Operands
  packFloat : String → Except Err String
  packDouble : String → Except Err String

/-- The merged OPCODES dictionary.  loadopcodes writes the I table first,
then J, then R, so on a collision the R entry wins, then J, then I. -/
def opcodeLookup (env : Env) (t : String) : Option Nat :=
  (List.lookup t env.rops).orElse fun _ =>
    (List.lookup t env.jops).orElse fun _ => List.lookup t env.iops

/-! Directives (directives.py). -/

/-- AlignDirective.nextaddress after its argument has been parsed to n:
round up to the next multiple of 2 ^ n, unchanged when already aligned. -/
def alignNext (n : Nat) (a : Nat) : Nat :=
  let multof := 2 ^ n
  if a % multof = 0 then a else a / multof * multof + multof

/-- AsciizDirective byte length: the total of len(stripped) + 1 per string. -/
def asciizByteLength (args : List String) : Nat :=
  args.foldl (fun b w => b + ((stripQuotes w).length + 1)) 0

/-- AsciizDirective.nextaddresses: a leading entry equal to the incoming
address, then one cumulative entry per string. -/
def asciizAddrs : List String → Nat → List Nat
  | [], a => [a]
  | w :: rest, a => a :: asciizAddrs rest (a + ((stripQuotes w).length + 1))

/-- Dispatch of `directiveobj.nextaddress(curraddr)`.  Addresses are kept in
Nat; a negative parsed value (never produced by a well-formed source) is
reported as an error rather than wrapping. -/
def Directive.nextaddress (d : Directive) (a : Nat) : Except Err Nat :=
  match d with
  | .text args =>
    match args.head? with
    | none => .ok 0
    | some s =>
      match pyIntHex s with
      | some n => if n < 0 then .error .valueError else .ok n.toNat
      | none => .error .valueError
  | .data args =>
    match args.head? with
    | none => .ok 512
    | some s =>
      match pyIntHex s with
      | some n => if n < 0 then .error .valueError else .ok n.toNat
      | none => .error .valueError
  | .align args =>
    match args.head? with
    | none => .error .indexError
    | some s =>
      match pyInt s with
      | some n => if n < 0 then .error .valueError else .ok (alignNext n.toNat a)
      | none => .error .valueError
  | .asciiz args => .ok (asciizByteLength args + a)
  | .double args => .ok (a + args.length * 8)
  | .flt args => .ok (a + args.length * 4)
  | .word args => .ok (a + args.length * 4)
  | .space args =>
    match args.head? with
    | none => .error .indexError
    | some s =>
      match pyInt s with
      | some n => if n < 0 then .error .valueError else .ok (a + n.toNat)
      | none => .error .valueError

/-- Dispatch of `instruction.nextaddresses(curraddr)`.  Only the data
directives override the base signature with a one-argument version; on the
others the inherited two-parameter method is missing its datasize argument,
a TypeError (never reached, because their encodings are empty). -/
def Directive.nextaddresses (d : Directive) (a : Nat) : Except Err (List Nat)  :=
  match d with
  | .asciiz args => .ok (asciizAddrs args a)
  | .double args => .ok ((List.range args.length).map fun x => a + 8 * x)
  | .flt args => .ok ((List.range args.length).map fun x => a + 4 * x)
  | .word args => .ok ((List.range args.length).map fun x => a + 4 * x)
  | _ => .error .typeError

/-- Encoding of one .word argument: strip comma/space, parse hex when "0x"
occurs in the stripped token else decimal, pack as a big-endian signed
32-bit integer and hexlify (eight hex digits of the value mod 2 ^ 32). -/
def wordEnc (v : String) : Except Err String :=
  let v1 := stripCommaSpace v
  match (if hasSub0x v1.toList then pyIntHex v1 else pyInt v1) with
  | none => .error .valueError
  | some n =>
    if n < -(2 ^ 31) || 2 ^ 31 - 1 < n then .error .structError
    else .ok (hex8 ((n % 4294967296).toNat))

/-- Dispatch of `instruction.encode()` for directives: .text/.data/.align/
.space inherit the base encode returning "", the data directives return one
hex string per argument. -/
def Directive.encode (env : Env) (d : Directive) : Except Err EncRes :=
  match d with
  | .text _ => .ok (.str "")
  | .data _ => .ok (.str "")
  | .align _ => .ok (.str "")
  | .space _ => .ok (.str "")
  | .asciiz args => .ok (.list (args.map fun w => hexlifyz (stripQuotes w)))
  | .word args => (args.mapM wordEnc).map .list
  | .double args => (args.mapM env.packDouble).map .list
  | .flt args => (args.mapM env.packFloat).map .list

/-! Instructions (instructions.py). -/

/-- Instruction.nextaddress: every instruction occupies four bytes. -/
def Instruction.nextaddress (a : Nat) : Nat := a + 4

/-- Deferred symbol resolution shared by the I, Branch and J encoders: a
string operand that `isdigit` is read as a decimal literal, otherwise it is
looked up in SYMTAB (KeyError when absent). -/
def resolveImm (tab : SymTab) : Imm → Except Err Int
  | .lit i => .ok i
  | .sym s =>
    if pyIsdigit s then
      match pyInt s with
      | some v => .ok v
      | none => .error .valueError
    else
      match symLookup tab s with
      | some v => .ok (Int.ofNat v)
      | none => .error (.undefinedSymbol s)

/-- IType.encode word: opcode shifted and xored with rs1, rdest and the
immediate masked to 16 bits (`x & 0xffff` in Python is `x % 2 ^ 16`). -/
def ITypeWord (opcode rs1 rdest : Nat) (imm : Int) : Nat :=
  ((((opcode <<< 5) ^^^ rs1) <<< 5) ^^^ rdest) <<< 16 ^^^ ((imm % 65536).toNat)

/-- Branch.encode word: the same packing as IType applied to the
PC-relative offset `immediate - (curraddr + 4)`. -/
def BranchWord (opcode rs1 rdest : Nat) (imm : Int) (curraddr : Nat) : Nat :=
  ((((opcode <<< 5) ^^^ rs1) <<< 5) ^^^ rdest) <<< 16 ^^^
    (((imm - ((curraddr : Int) + 4)) % 65536).toNat)

/-- JType.encode word: opcode in the top six bits xored with the 26-bit
masked PC-relative target. -/
def JTypeWord (opcode : Nat) (name : Int) (curraddr : Nat) : Nat :=
  (opcode <<< 26) ^^^ (((name - ((curraddr : Int) + 4)) % 67108864).toNat)

/-- RALU.encode word: opcode, rs1, rs2, rdest in five-bit steps, then a
five-bit shift for the reserved zero bits, then a six-bit shift receiving
the function code, combined with +. -/
def RALUWord (opcode rs1 rs2 rdest func : Nat) : Nat :=
  (((((((opcode <<< 5) + rs1) <<< 5) + rs2) <<< 5) + rdest) <<< 5) <<< 6 + func

/-- RFPU.encode word: as RALU but the shifts are six then five, so the
reserved field is six bits wide and the function code five. -/
def RFPUWord (opcode rs1 rs2 rdest func : Nat) : Nat :=
  (((((((opcode <<< 5) + rs1) <<< 5) + rs2) <<< 5) + rdest) <<< 6) <<< 5 + func

/-- Branch.__init__: the declared rs1 and rdest keyword parameters are
stored swapped - the rs1 argument lands in the stored rdest slot and the
rdest argument in the stored rs1 slot.  The `Instr.branch` fields are the
stored attributes in declaration order (opcode, self rs1, self rdest,
immediate), which is also the order `BranchWord` packs them in. -/
def Branch.init (opcode rs1 rdest : Nat) (immediate : Imm) : Instr :=
  .branch opcode rdest rs1 immediate

/-- Trap.__init__: an IType whose immediate is bound from the name keyword
and whose registers default to zero. -/
def Trap.init (opcode : Nat) (name : Imm) : Instr := .ityp opcode 0 0 name

/-- Dispatch of the per-instruction encode calls of the second pass.  Which
variants receive the current address is the static needsPC property: exactly
JType and Branch. -/
def Instr.encode (tab : SymTab) (i : Instr) (curraddr : Nat) : Except Err String :=
  match i with
  | .ityp o r1 rd imm =>
    match resolveImm tab imm with
    | .error e => .error e
    | .ok v => .ok (hex8 (ITypeWord o r1 rd v))
  | .branch o r1 rd imm =>
    match resolveImm tab imm with
    | .error e => .error e
    | .ok v => .ok (hex8 (BranchWord o r1 rd v curraddr))
  | .jtyp o nm =>
    match resolveImm tab nm with
    | .error e => .error e
    | .ok v => .ok (hex8 (JTypeWord o v curraddr))
  | .ralu o f r1 r2 rd => .ok (hex8 (RALUWord o r1 r2 rd f))
  | .rfpu o f r1 r2 rd => .ok (hex8 (RFPUWord o r1 r2 rd f))

/-- Encode one statement the way the second pass does. -/
def stmtEncode (env : Env) (tab : SymTab) (s : Stmt) (curraddr : Nat) : Except Err EncRes :=
  match s with
  | .instr i => (Instr.encode tab i curraddr).map .str
  | .dir d => Directive.encode env d

/-- Dispatch of `instruction.nextaddresses(curraddr)` on a statement.  An
instruction object has no such method at all (an AttributeError if it were
ever reached); it never is, because instruction encodings are single
strings. -/
def Stmt.nextaddressesOf (s : Stmt) (a : Nat) : Except Err (List Nat) :=
  match s with
  | .dir d => Directive.nextaddresses d a
  | .instr _ => .error .typeError

/-! The assembler driver (dlxparser.py). -/

/-- matchlabel: raise on a token already present in SYMTAB (the duplicate
check), otherwise report whether the token ends in a colon. -/
def matchlabel (tab : SymTab) (t : String) : Except Err Bool :=
  if symContains tab t then .error (.duplicateSymbol t)
  else .ok (t.toList.getLast? == some ':')

/-- The DIRECTIVES table mapping directive spellings to constructors. -/
def DIRECTIVES (t : String) : Option (List String → Directive) :=
  if t == ".text" then some .text
  else if t == ".data" then some .data
  else if t == ".align" then some .align
  else if t == ".asciiz" then some .asciiz
  else if t == ".double" then some .double
  else if t == ".float" then some .flt
  else if t == ".word" then some .word
  else if t == ".space" then some .space
  else none

/-- matchdirective: first character is a dot and the token is a known
directive. -/
def matchdirective (t : String) : Bool :=
  match t.toList.head? with
  | some '.' => (DIRECTIVES t).isSome
  | _ => false

/-- matchopcode: membership in the merged OPCODES table. -/
def matchopcode (env : Env) (t : String) : Bool := (opcodeLookup env t).isSome

/-- directivehandler: re-tokenise the line, skip a leading label, rejoin the
argument tokens by spaces and re-split them on ", ", and build the directive
object from the DIRECTIVES table. -/
def directivehandler (tab : SymTab) (line : String) : Except Err Directive :=
  let tokens := pySplitWs line
  match matchlabel tab (tokens.headD "") with
  | .error e => .error e
  | .ok isLab =>
    let dtok := if isLab then tokens.getD 1 "" else tokens.headD ""
    let argtokens := if isLab then tokens.drop 2 else tokens.drop 1
    match DIRECTIVES dtok with
    | none => .error .keyError
    | some mkDir =>
      let argtokens :=
        if argtokens.isEmpty then argtokens
        else splitCommaSpaceStr (intercalateSpace argtokens)
      .ok (mkDir argtokens)

/-- IType(opcode, **operands): accepts rs1, rdest and immediate keywords
(defaults zero); a name or rs2 key is an unexpected keyword, TypeError. -/
def mkIType (opcode : Nat) (o : Operands) : Except Err Instr :=
  if o.name.isSome || o.rs2.isSome then .error .typeError
  else .ok (.ityp opcode (o.rs1.getD 0) (o.rdest.getD 0) (o.immediate.getD (.lit 0)))

/-- Branch(opcode, **operands): same keywords as IType, but the constructor
stores rs1 and rdest swapped. -/
def mkBranch (opcode : Nat) (o : Operands) : Except Err Instr :=
  if o.name.isSome || o.rs2.isSome then .error .typeError
  else .ok (Branch.init opcode (o.rs1.getD 0) (o.rdest.getD 0) (o.immediate.getD (.lit 0)))

/-- Trap(opcode, **operands): accepts only the name keyword. -/
def mkTrap (opcode : Nat) (o : Operands) : Except Err Instr :=
  if o.rdest.isSome || o.rs1.isSome || o.rs2.isSome || o.immediate.isSome then .error .typeError
  else .ok (Trap.init opcode (match o.name with | some s => .sym s | none => .lit 0))

/-- JType(opcode, **operands): accepts only the name keyword. -/
def mkJType (opcode : Nat) (o : Operands) : Except Err Instr :=
  if o.rdest.isSome || o.rs1.isSome || o.rs2.isSome || o.immediate.isSome then .error .typeError
  else .ok (.jtyp opcode (match o.name with | some s => .sym s | none => .lit 0))

/-- RALU(opcode, func, **operands): accepts rs1, rs2 and rdest keywords. -/
def mkRALU (opcode func : Nat) (o : Operands) : Except Err Instr :=
  if o.name.isSome || o.immediate.isSome then .error .typeError
  else .ok (.ralu opcode func (o.rs1.getD 0) (o.rs2.getD 0) (o.rdest.getD 0))

/-- RFPU(opcode, func, **operands): accepts rs1, rs2 and rdest keywords. -/
def mkRFPU (opcode func : Nat) (o : Operands) : Except Err Instr :=
  if o.name.isSome || o.immediate.isSome then .error .typeError
  else .ok (.rfpu opcode func (o.rs1.getD 0) (o.rs2.getD 0) (o.rdest.getD 0))

/-- opcodehandler: look the token up in OPCODES, parse the operands, then
run the three sequential table tests of the source; the object assigned
last wins, and no assignment at all is an UnboundLocalError. -/
def opcodehandler (env : Env) (tab : SymTab) (line : String) : Except Err Instr :=
  let tokens := pySplitWs line
  match matchlabel tab (tokens.headD "") with
  | .error e => .error e
  | .ok isLab =>
    let tok := if isLab then tokens.getD 1 "" else tokens.headD ""
    match opcodeLookup env tok with
    | none => .error (.notValidOpcode tok)
    | some opcode =>
      let ops := env.parseoperands line
      let step1 : Except Err (Option Instr) :=
        if (List.lookup tok env.iops).isSome then
          if tok == "beqz" || tok == "bnez" then (mkBranch opcode ops).map some
          else if tok == "trap" then (mkTrap opcode ops).map some
          else (mkIType opcode ops).map some
        else .ok none
      match step1 with
      | .error e => .error e
      | .ok inst1 =>
        let step2 : Except Err (Option Instr) :=
          if (List.lookup tok env.jops).isSome then (mkJType opcode ops).map some
          else .ok inst1
        match step2 with
        | .error e => .error e
        | .ok inst2 =>
          let step3 : Except Err (Option Instr) :=
            match List.lookup tok env.rops with
            | some rop =>
              match List.lookup tok env.rfuncs with
              | none => .error .keyError
              | some func =>
                if rop = 0 then (mkRALU opcode func ops).map some
                else (mkRFPU opcode func ops).map some
            | none => .ok inst2
          match step3 with
          | .error e => .error e
          | .ok (some i) => .ok i
          | .ok none => .error .unboundLocal

/-- The body of the first-pass loop for one input line: strip the comment
suffix and surrounding whitespace (a blank remainder produces nothing),
store a label into SYMTAB (synthesising a nop when the label stood alone),
and dispatch on the remaining first token to the directive or opcode
handler, producing the statement, the updated table and the next address -
the directive's nextaddress, or the current address plus four for an
instruction. -/
def classifyLine (env : Env) (tab : SymTab) (curraddr : Nat) (line : String) :
    Except Err (Option (Stmt × SymTab × Nat)) :=
  let partitioned := pyStrip (takeUntilSemi line)
  if partitioned == "" then .ok none
  else
    let tokens := pySplitWs partitioned
    match matchlabel tab (tokens.headD "") with
    | .error e => .error e
    | .ok isLab =>
      let tab1 := if isLab then symInsert (stripColons (tokens.headD "")) curraddr tab else tab
      let token1 :=
        if isLab then
          if tokens.length = 1 then "nop" else tokens.getD 1 ""
        else tokens.headD ""
      let partitioned1 :=
        if isLab && tokens.length = 1 then partitioned ++ " nop" else partitioned
      if matchdirective token1 then
        match directivehandler tab1 partitioned1 with
        | .error e => .error e
        | .ok d =>
          match Directive.nextaddress d curraddr with
          | .error e => .error e
          | .ok addr1 => .ok (some (.dir d, tab1, addr1))
      else if matchopcode env token1 then
        match opcodehandler env tab1 partitioned1 with
        | .error e => .error e
        | .ok obj => .ok (some (.instr obj, tab1, curraddr + 4))
      else .error .expectedDirectiveOrOpcode

/-- The first pass: run the loop body over every line, collecting the
statement objects, the final SYMTAB state, and the address each statement
was reached at. -/
def firstpassGo (env : Env) :
    List String → SymTab → Nat → Except Err (List Stmt × SymTab × List Nat)
  | [], tab, _ => .ok ([], tab, [])
  | line :: rest, tab, curraddr =>
    match classifyLine env tab curraddr line with
    | .error e => .error e
    | .ok none => firstpassGo env rest tab curraddr
    | .ok (some (s, tab1, addr1)) =>
      match firstpassGo env rest tab1 addr1 with
      | .error e => .error e
      | .ok (stmts, tabf, trace) => .ok (s :: stmts, tabf, curraddr :: trace)

/-- Run the first pass on a source text from a given inherited SYMTAB state
(the module global is NOT cleared by the engine entry point). -/
def firstpassRun (env : Env) (tab : SymTab) (input : String) :
    Except Err (List Stmt × SymTab × List Nat) :=
  firstpassGo env (splitLinesPy input) tab 0

/-- The address update of the second pass: the uniform dynamic
`instruction.nextaddress(curraddr)` call, which the directives override and
every instruction inherits as plus four. -/
def pass2Next (s : Stmt) (a : Nat) : Except Err Nat :=
  match s with
  | .dir d => Directive.nextaddress d a
  | .instr _ => .ok (Instruction.nextaddress a)

/-- The address at which the second pass reaches each statement, starting
from `a` - the address thread of secondpassGo. -/
def pass2Trace : List Stmt → Nat → Except Err (List Nat)
  | [], _ => .ok []
  | s :: rest, a =>
    match pass2Next s a with
    | .error e => .error e
    | .ok a1 =>
      match pass2Trace rest a1 with
      | .error e => .error e
      | .ok t => .ok (a :: t)

/-- The address after the second pass has walked a statement list. -/
def pass2Final : List Stmt → Nat → Except Err Nat
  | [], a => .ok a
  | s :: rest, a =>
    match pass2Next s a with
    | .error e => .error e
    | .ok a1 => pass2Final rest a1

/-- The output lines of one statement in the second pass: encode it, then
stamp a single-string encoding with the current address, and each element
of a list encoding with the matching entry of the directive's
nextaddresses (a zip, so a surplus address slot is dropped); falsy
encodings (the empty string, the empty list) produce no lines. -/
def stmtLines (env : Env) (tab : SymTab) (s : Stmt) (curraddr : Nat) :
    Except Err (List String) :=
  match stmtEncode env tab s curraddr with
  | .error e => .error e
  | .ok enc =>
    match enc with
    | .str e => if e == "" then .ok [] else .ok [hex8 curraddr ++ ": " ++ e]
    | .list l =>
      if l.isEmpty then .ok []
      else
        match Stmt.nextaddressesOf s curraddr with
        | .error e => .error e
        | .ok addrs => .ok ((addrs.zip l).map fun p => hex8 p.1 ++ ": " ++ p.2)

/-- The second pass: emit the lines of each statement in order and always
advance the address by the statement's nextaddress, whether or not it
emitted anything. -/
def secondpassGo (env : Env) (tab : SymTab) :
    List Stmt → Nat → Except Err (List String)
  | [], _ => .ok []
  | s :: rest, curraddr =>
    match stmtLines env tab s curraddr with
    | .error e => .error e
    | .ok ls =>
      match pass2Next s curraddr with
      | .error e => .error e
      | .ok a1 =>
        match secondpassGo env tab rest a1 with
        | .error e => .error e
        | .ok out => .ok (ls ++ out)

/-- The run entry point of the engine: first pass from the inherited SYMTAB
(never reset), then the second pass over the statement list with the table
the first pass left, joined by newlines. -/
def runWith (env : Env) (tab : SymTab) (input : String) : Except Err String :=
  match firstpassRun env tab input with
  | .error e => .error e
  | .ok (stmts, tab1, _) =>
    match secondpassGo env tab1 stmts 0 with
    | .error e => .error e
    | .ok out => .ok (joinNewlines out)

/-- Concrete instantiation of the external collaborators used by the closed
theorems below: an opcode registry whose I-type table holds the nop
mnemonic, and an operand matcher returning the empty operand set - the
value the eleven regexes of parseoperands produce on every operand-free
line appearing in those theorems ("nop", "foo: nop", "nop: nop").  The
float packers are never reached by those programs. -/
def sampleEnv : Env :=
  ⟨[("nop", 0)], [], [], [], fun _ => Operands.empty,
   fun _ => Except.error Err.valueError, fun _ => Except.error Err.valueError⟩

/-! Specification-side decoders and auxiliary notions used to state the
claims.  The decoders read a 32-bit word back by the documented bit layout
(they are written from the specification's words, to be compared with the
encoders above). -/

/-- Opcode field: the top bits from position 26. -/
def decOpcode (w : Nat) : Nat := w / 2 ^ 26

/-- First source register: five bits from position 21. -/
def decRs1 (w : Nat) : Nat := w / 2 ^ 21 % 2 ^ 5

/-- Second source register: five bits from position 16. -/
def decRs2 (w : Nat) : Nat := w / 2 ^ 16 % 2 ^ 5

/-- Destination register: five bits from position 11. -/
def decRdest (w : Nat) : Nat := w / 2 ^ 11 % 2 ^ 5

/-- ALU function code: the low six bits. -/
def decFuncALU (w : Nat) : Nat := w % 2 ^ 6

/-- FPU function code: the low five bits. -/
def decFuncFPU (w : Nat) : Nat := w % 2 ^ 5

/-- Sign extension of a w-bit field. -/
def signExtend (w : Nat) (f : Nat) : Int :=
  if f < 2 ^ (w - 1) then (f : Int) else (f : Int) - 2 ^ w

/-- The stored rs1 attribute of an instruction object. -/
def Instr.rs1Store : Instr → Option Nat
  | .ityp _ r _ _ => some r
  | .branch _ r _ _ => some r
  | .jtyp _ _ => none
  | .ralu _ _ r _ _ => some r
  | .rfpu _ _ r _ _ => some r

/-- The stored rdest attribute of an instruction object. -/
def Instr.rdestStore : Instr → Option Nat
  | .ityp _ _ r _ => some r
  | .branch _ _ r _ => some r
  | .jtyp _ _ => none
  | .ralu _ _ _ _ r => some r
  | .rfpu _ _ _ _ r => some r

/-- Whether an instruction's symbolic immediate or target is the given
name (the operand kept as unresolved text that encode will look up). -/
def refsSymB (i : Instr) (nm : String) : Bool :=
  match i with
  | .ityp _ _ _ (.sym s) => s == nm
  | .branch _ _ _ (.sym s) => s == nm
  | .jtyp _ (.sym s) => s == nm
  | _ => false

/-! Helper lemmas. -/

/-- Xor with a shifted value acts as addition on a small operand: the two
bit ranges are disjoint. -/
theorem xorDisjoint (x f k : Nat) (h : f < 2 ^ k) : (x <<< k) ^^^ f = x * 2 ^ k + f := by
  have hor : (x <<< k) ^^^ f = (x <<< k) ||| f := by
    apply Nat.eq_of_testBit_eq
    intro i
    rw [Nat.testBit_xor, Nat.testBit_lor, Nat.testBit_shiftLeft]
    by_cases hik : k ≤ i
    · have hf : f.testBit i = false :=
        Nat.testBit_eq_false_of_lt (lt_of_lt_of_le h (Nat.pow_le_pow_right (by norm_num) hik))
      simp [hf]
    · simp [Nat.not_le.mp hik, Nat.not_le.mpr (Nat.not_le.mp hik)]
  rw [hor, Nat.shiftLeft_eq, Nat.mul_comm, Nat.mul_add_lt_is_or h x, Nat.mul_comm]

/-- The low k bits of a word assembled by xoring a field under a shift are
that field. -/
theorem xorLowBits (x f k : Nat) (h : f < 2 ^ k) : ((x <<< k) ^^^ f) % 2 ^ k = f := by
  rw [xorDisjoint x f k h, Nat.mul_comm, Nat.mul_add_mod]
  exact Nat.mod_eq_of_lt h

/-- Decimal digits are not whitespace. -/
theorem not_ws_of_digit (c : Char) (h : c.isDigit = true) : c.isWhitespace = false := by
  simp [Char.isDigit] at h
  simp [Char.isWhitespace, Char.ext_iff]
  refine ⟨⟨⟨?_, ?_⟩, ?_⟩, ?_⟩ <;>
    · intro hv
      rw [hv] at h
      exact absurd h (by decide)

/-- Dropping whitespace from an all-digit list is the identity. -/
theorem dropWhile_ws_of_digits (cs : List Char) (h : cs.all Char.isDigit = true) :
    cs.dropWhile Char.isWhitespace = cs := by
  cases cs with
  | nil => rfl
  | cons c t =>
    have hc : c.isDigit = true := by
      simp [List.all_cons] at h
      exact h.1
    rw [List.dropWhile_cons, not_ws_of_digit c hc]
    simp

/-- Stripping whitespace from an all-digit list is the identity. -/
theorem stripEnds_ws_of_digits (cs : List Char) (h : cs.all Char.isDigit = true) :
    stripEnds Char.isWhitespace cs = cs := by
  unfold stripEnds
  rw [dropWhile_ws_of_digits cs h,
      dropWhile_ws_of_digits cs.reverse (by simpa using h), List.reverse_reverse]

/-- Python int on an isdigit string is its decimal value. -/
theorem pyInt_of_isdigit (s : String) (h : pyIsdigit s = true) :
    pyInt s = some (Int.ofNat (decVal s.toList)) := by
  unfold pyIsdigit at h
  rw [Bool.and_eq_true] at h
  obtain ⟨hne, hall⟩ := h
  unfold pyInt
  rw [stripEnds_ws_of_digits _ hall]
  cases hl : s.toList with
  | nil => rw [hl] at hne; exact absurd hne (by decide)
  | cons c t =>
    rw [hl] at hall
    have hc : c.isDigit = true := by
      simp [List.all_cons] at hall
      exact hall.1
    have hcm : c ≠ '-' := by
      intro hcc
      rw [hcc] at hc
      exact absurd hc (by decide)
    have hcp : c ≠ '+' := by
      intro hcc
      rw [hcc] at hc
      exact absurd hc (by decide)
    have h1 : (((c :: t).head? == some '-') : Bool) = false := by
      simp [hcm]
    have h2 : (((c :: t).head? == some '+') : Bool) = false := by
      simp [hcp]
    simp only [h1, h2, Bool.false_eq_true, if_false]
    unfold decDigits
    simp [hall]

/-- Low sixteen bits of a Branch word are the masked PC-relative offset. -/
theorem branchWord_low (o r1 rd : Nat) (imm : Int) (addr : Nat) :
    BranchWord o r1 rd imm addr % 2 ^ 16 = ((imm - ((addr : Int) + 4)) % 2 ^ 16).toNat := by
  have h1 : 0 ≤ (imm - ((addr : Int) + 4)) % 65536 := Int.emod_nonneg _ (by norm_num)
  have h2 : (imm - ((addr : Int) + 4)) % 65536 < 65536 := Int.emod_lt_of_pos _ (by norm_num)
  have hfld : ((imm - ((addr : Int) + 4)) % 65536).toNat < 2 ^ 16 := by omega
  unfold BranchWord
  rw [xorLowBits _ _ _ hfld]
  norm_num

/-- Low twenty-six bits of a Jump word are the masked PC-relative offset. -/
theorem jtypeWord_low (o : Nat) (name : Int) (addr : Nat) :
    JTypeWord o name addr % 2 ^ 26 = ((name - ((addr : Int) + 4)) % 2 ^ 26).toNat := by
  have h1 : 0 ≤ (name - ((addr : Int) + 4)) % 67108864 := Int.emod_nonneg _ (by norm_num)
  have h2 : (name - ((addr : Int) + 4)) % 67108864 < 67108864 :=
    Int.emod_lt_of_pos _ (by norm_num)
  have hfld : ((name - ((addr : Int) + 4)) % 67108864).toNat < 2 ^ 26 := by omega
  unfold JTypeWord
  rw [xorLowBits _ _ _ hfld]
  norm_num

/-- Sign extension of the masked value recovers a sixteen-bit offset. -/
theorem signExtend_recover16 (d : Int) (hlo : -(2 ^ 15) ≤ d) (hhi : d < 2 ^ 15) :
    signExtend 16 (d % (2 ^ 16 : Int)).toNat = d := by
  unfold signExtend
  norm_num at *
  split <;> omega

/-- Sign extension of the masked value recovers a twenty-six-bit offset. -/
theorem signExtend_recover26 (d : Int) (hlo : -(2 ^ 25) ≤ d) (hhi : d < 2 ^ 25) :
    signExtend 26 (d % (2 ^ 26 : Int)).toNat = d := by
  unfold signExtend
  norm_num at *
  split <;> omega

/-- C4: for Branch and Jump instructions whose resolved target is within
the signed range of the immediate field (sixteen bits for Branch,
twenty-six for Jump), the encoded field is the masked difference
target minus (current address + 4), and sign-extending the field and adding
current address + 4 recovers the target exactly. -/
theorem C4_pc_relative_round_trip
    (o r1 rd : Nat) (target : Int) (addr : Nat)
    (hlo : -(2 ^ 15) ≤ target - ((addr : Int) + 4))
    (hhi : target - ((addr : Int) + 4) < 2 ^ 15)
    (jo : Nat) (jtarget : Int) (jaddr : Nat)
    (hjlo : -(2 ^ 25) ≤ jtarget - ((jaddr : Int) + 4))
    (hjhi : jtarget - ((jaddr : Int) + 4) < 2 ^ 25) :
    BranchWord o r1 rd target addr % 2 ^ 16 = ((target - ((addr : Int) + 4)) % 2 ^ 16).toNat
    ∧ signExtend 16 (BranchWord o r1 rd target addr % 2 ^ 16) + ((addr : Int) + 4) = target
    ∧ JTypeWord jo jtarget jaddr % 2 ^ 26 = ((jtarget - ((jaddr : Int) + 4)) % 2 ^ 26).toNat
    ∧ signExtend 26 (JTypeWord jo jtarget jaddr % 2 ^ 26) + ((jaddr : Int) + 4) = jtarget := by
  refine ⟨branchWord_low o r1 rd target addr, ?_, jtypeWord_low jo jtarget jaddr, ?_⟩
  · rw [branchWord_low o r1 rd target addr, signExtend_recover16 _ hlo hhi]
    ring
  · rw [jtypeWord_low jo jtarget jaddr, signExtend_recover26 _ hjlo hjhi]
    ring

/-- Witness for C4 at branch target 0 from address 0 (offset -4) and the
same for the jump. -/
theorem C4_witness :
    (-(2 ^ 15) ≤ (0 : Int) - (((0 : Nat) : Int) + 4)
      ∧ (0 : Int) - (((0 : Nat) : Int) + 4) < 2 ^ 15)
    ∧ signExtend 16 (BranchWord 4 1 2 0 0 % 2 ^ 16) + (((0 : Nat) : Int) + 4) = 0
    ∧ signExtend 26 (JTypeWord 2 0 0 % 2 ^ 26) + (((0 : Nat) : Int) + 4) = 0 :=
  ⟨⟨by decide, by decide⟩,
   (C4_pc_relative_round_trip 4 1 2 0 0 (by decide) (by decide) 2 0 0
     (by decide) (by decide)).2.1,
   (C4_pc_relative_round_trip 4 1 2 0 0 (by decide) (by decide) 2 0 0
     (by decide) (by decide)).2.2.2⟩

/-- C5: decoding a RegisterALU or RegisterFPU word by the documented layout
(opcode six bits, rs1, rs2, rdest five bits each, then five reserved bits
and a six-bit function code for ALU, but six reserved bits and a five-bit
function code for FPU) recovers the supplied field tuple, for in-range
fields. -/
theorem C5_register_roundtrip
    (o r1 r2 rd f : Nat) (ho : o < 2 ^ 6) (h1 : r1 < 2 ^ 5) (h2 : r2 < 2 ^ 5)
    (h3 : rd < 2 ^ 5) (hf : f < 2 ^ 6)
    (fo fr1 fr2 frd ff : Nat) (gfo : fo < 2 ^ 6) (g1 : fr1 < 2 ^ 5) (g2 : fr2 < 2 ^ 5)
    (g3 : frd < 2 ^ 5) (gf : ff < 2 ^ 5) :
    (decOpcode (RALUWord o r1 r2 rd f) = o
      ∧ decRs1 (RALUWord o r1 r2 rd f) = r1
      ∧ decRs2 (RALUWord o r1 r2 rd f) = r2
      ∧ decRdest (RALUWord o r1 r2 rd f) = rd
      ∧ decFuncALU (RALUWord o r1 r2 rd f) = f)
    ∧ (decOpcode (RFPUWord fo fr1 fr2 frd ff) = fo
      ∧ decRs1 (RFPUWord fo fr1 fr2 frd ff) = fr1
      ∧ decRs2 (RFPUWord fo fr1 fr2 frd ff) = fr2
      ∧ decRdest (RFPUWord fo fr1 fr2 frd ff) = frd
      ∧ decFuncFPU (RFPUWord fo fr1 fr2 frd ff) = ff) := by
  norm_num at *
  refine ⟨⟨?_, ?_, ?_, ?_, ?_⟩, ⟨?_, ?_, ?_, ?_, ?_⟩⟩ <;>
    · simp only [decOpcode, decRs1, decRs2, decRdest, decFuncALU, decFuncFPU,
        RALUWord, RFPUWord, Nat.shiftLeft_eq]
      norm_num
      omega

/-- Witness for C5 at a concrete in-range field tuple. -/
theorem C5_witness :
    (32 < 2 ^ 6 ∧ 33 < 2 ^ 6 ∧ 9 < 2 ^ 5)
    ∧ decOpcode (RALUWord 32 1 2 3 33) = 32
    ∧ decFuncALU (RALUWord 32 1 2 3 33) = 33
    ∧ decFuncFPU (RFPUWord 17 4 5 6 9) = 9 :=
  ⟨⟨by decide, by decide, by decide⟩,
   (C5_register_roundtrip 32 1 2 3 33 (by decide) (by decide) (by decide) (by decide)
     (by decide) 17 4 5 6 9 (by decide) (by decide) (by decide) (by decide) (by decide)).1.1,
   (C5_register_roundtrip 32 1 2 3 33 (by decide) (by decide) (by decide) (by decide)
     (by decide) 17 4 5 6 9 (by decide) (by decide) (by decide) (by decide)
     (by decide)).1.2.2.2.2,
   (C5_register_roundtrip 32 1 2 3 33 (by decide) (by decide) (by decide) (by decide)
     (by decide) 17 4 5 6 9 (by decide) (by decide) (by decide) (by decide)
     (by decide)).2.2.2.2.2⟩

/-- C8: the Branch constructor stores the rs1 argument in the rdest slot
and the rdest argument in the rs1 slot, and the Branch word packing is the
RegImmediate layout applied to the stored fields with the PC-relative
offset in the immediate position. -/
theorem C8_branch_register_swap (o r1 rd : Nat) (i : Imm) (o2 a b : Nat) (imm : Int)
    (addr : Nat) :
    (Branch.init o r1 rd i).rs1Store = some rd
    ∧ (Branch.init o r1 rd i).rdestStore = some r1
    ∧ Branch.init o r1 rd i = Instr.branch o rd r1 i
    ∧ BranchWord o2 a b imm addr = ITypeWord o2 a b (imm - ((addr : Int) + 4)) :=
  ⟨rfl, rfl, rfl, rfl⟩

/-- A directive-computed aligned address is a multiple of the width. -/
theorem alignNext_mod (n a : Nat) : alignNext n a % 2 ^ n = 0 := by
  by_cases h : a % 2 ^ n = 0
  · simp [alignNext, h]
  · simp only [alignNext]
    rw [if_neg h]
    have he : a / 2 ^ n * 2 ^ n + 2 ^ n = (a / 2 ^ n + 1) * 2 ^ n := by ring
    rw [he, Nat.mul_mod_left]

/-- An already-aligned address is left unchanged. -/
theorem alignNext_aligned (n b : Nat) (h : b % 2 ^ n = 0) : alignNext n b = b := by
  unfold alignNext
  simp [h]

/-- C9: the .align address function is idempotent - the result is a
multiple of 2 ^ n, applying it twice equals applying it once, and an
already-aligned address is unchanged; the directive dispatch computes
exactly this function on its parsed argument. -/
theorem C9_align_idempotent (s : String) (n a : Nat) (h : pyInt s = some (Int.ofNat n)) :
    Directive.nextaddress (.align [s]) a = .ok (alignNext n a)
    ∧ alignNext n (alignNext n a) = alignNext n a
    ∧ alignNext n a % 2 ^ n = 0
    ∧ (a % 2 ^ n = 0 → alignNext n a = a) := by
  refine ⟨?_, alignNext_aligned n _ (alignNext_mod n a), alignNext_mod n a,
    fun hx => alignNext_aligned n a hx⟩
  simp [Directive.nextaddress, h]

/-- Witness for C9 with width two at address six. -/
theorem C9_witness :
    pyInt "2" = some (Int.ofNat 2)
    ∧ Directive.nextaddress (.align ["2"]) 6 = .ok (alignNext 2 6)
    ∧ alignNext 2 (alignNext 2 6) = alignNext 2 6 :=
  ⟨by decide, (C9_align_idempotent "2" 2 6 (by decide)).1,
   (C9_align_idempotent "2" 2 6 (by decide)).2.1⟩

/-- C10: a symbolic operand whose text is all decimal digits is read as a
decimal literal by every encoder that resolves symbols, and the symbol
table is never consulted for it - encoding is identical under any two
tables, including tables that define a label of that very name. -/
theorem C10_digit_operand_is_literal (tab tab' : SymTab) (o r1 rd a : Nat) (nm : String)
    (h : pyIsdigit nm = true) :
    resolveImm tab (.sym nm) = .ok (Int.ofNat (decVal nm.toList))
    ∧ Instr.encode tab (.ityp o r1 rd (.sym nm)) a
        = Instr.encode tab' (.ityp o r1 rd (.lit (Int.ofNat (decVal nm.toList)))) a
    ∧ Instr.encode tab (.branch o r1 rd (.sym nm)) a
        = Instr.encode tab' (.branch o r1 rd (.lit (Int.ofNat (decVal nm.toList)))) a
    ∧ Instr.encode tab (.jtyp o (.sym nm)) a
        = Instr.encode tab' (.jtyp o (.lit (Int.ofNat (decVal nm.toList)))) a := by
  have hres : resolveImm tab (.sym nm) = .ok (Int.ofNat (decVal nm.toList)) := by
    simp [resolveImm, h, pyInt_of_isdigit nm h]
  have hlit : ∀ (t : SymTab) (v : Int), resolveImm t (.lit v) = .ok v := fun _ _ => rfl
  refine ⟨hres, ?_, ?_, ?_⟩ <;> simp [Instr.encode, hres, hlit]

/-- Witness for C10: the all-digit name "42" encodes as the literal 42
even under a table binding the label "42" to 99. -/
theorem C10_witness :
    pyIsdigit "42" = true
    ∧ Instr.encode [("42", 99)] (.ityp 1 2 3 (.sym "42")) 0
        = Instr.encode [] (.ityp 1 2 3 (.lit (Int.ofNat (decVal "42".toList)))) 0 :=
  ⟨by decide, (C10_digit_operand_is_literal [("42", 99)] [] 1 2 3 0 "42" (by decide)).2.1⟩

/-- One classified line advances the first-pass address exactly as the
second pass will advance it over the produced statement. -/
theorem classifyLine_next (env : Env) (tab : SymTab) (a : Nat) (line : String)
    (s : Stmt) (tab1 : SymTab) (a1 : Nat)
    (h : classifyLine env tab a line = .ok (some (s, tab1, a1))) :
    pass2Next s a = .ok a1 := by
  simp only [classifyLine] at h
  repeat' split at h
  all_goals cases h
  all_goals first
    | rfl
    | (simp only [pass2Next]; assumption)

/-- C2: the addresses at which the first pass reaches the statements it
builds are exactly the addresses the second pass recomputes over the same
statement list from the same start. -/
theorem C2_pass_address_identity (env : Env) (lines : List String) :
    ∀ (tab : SymTab) (a : Nat) (stmts : List Stmt) (tabf : SymTab) (trace : List Nat),
    firstpassGo env lines tab a = .ok (stmts, tabf, trace) →
    pass2Trace stmts a = .ok trace := by
  induction lines with
  | nil =>
    intro tab a stmts tabf trace h
    simp only [firstpassGo] at h
    cases h
    simp [pass2Trace]
  | cons line rest ih =>
    intro tab a stmts tabf trace h
    simp only [firstpassGo] at h
    split at h
    · cases h
    · exact ih _ _ _ _ _ h
    · rename_i s tab1 a1 hcl
      split at h
      · cases h
      · rename_i trip hrec
        cases h
        simp only [pass2Trace]
        rw [classifyLine_next env tab a line s tab1 a1 hcl]
        simp [ih _ _ _ _ _ hrec]

/-- Witness for C2 on a two-statement program (one instruction, one .space
directive). -/
theorem C2_witness :
    firstpassGo sampleEnv ["nop", ".space 8"] [] 0
      = .ok ([Stmt.instr (.ityp 0 0 0 (.lit 0)), Stmt.dir (.space ["8"])], [], [0, 4])
    ∧ pass2Trace [Stmt.instr (.ityp 0 0 0 (.lit 0)), Stmt.dir (.space ["8"])] 0
      = .ok [0, 4] :=
  ⟨by rfl,
   C2_pass_address_identity sampleEnv ["nop", ".space 8"] [] 0
     [Stmt.instr (.ityp 0 0 0 (.lit 0)), Stmt.dir (.space ["8"])] [] [0, 4] (by rfl)⟩

/-- C1 (the code, run on a program that defines the same label twice):
matchlabel tests the colon-bearing token against a table whose keys are
colon-stripped, so the duplicate check never fires - the first pass
succeeds, the second definition silently overwrites the first (the table
binds foo to address 4, the address of the second definition), and
assembly produces a complete listing instead of a DuplicateSymbol error. -/
theorem C1_duplicate_label_not_rejected :
    firstpassRun sampleEnv [] "foo:\nfoo:"
      = .ok ([Stmt.instr (.ityp 0 0 0 (.lit 0)), Stmt.instr (.ityp 0 0 0 (.lit 0))],
          [("foo", 4), ("foo", 0)], [0, 4])
    ∧ symLookup [("foo", 4), ("foo", 0)] "foo" = some 4
    ∧ runWith sampleEnv [] "foo:\nfoo:" = .ok "00000000: 00000000\n00000004: 00000000" :=
  ⟨by rfl, by rfl, by rfl⟩

/-- C3 counterexample: the engine entry point does not start from an empty
SymbolTable - the module-global table persists across invocations.  A fresh
run of the one-line program "nop" produces a listing, but the same run
after an earlier invocation assembled "nop:" (leaving the binding nop to 0
in the table) aborts with Duplicate symbol, so the output is not a function
of the source text alone. -/
theorem C3_counterexample :
    runWith sampleEnv [] "nop" = .ok "00000000: 00000000"
    ∧ (firstpassRun sampleEnv [] "nop:").map (fun r => r.2.1) = .ok [("nop", 0)]
    ∧ runWith sampleEnv [("nop", 0)] "nop" = .error (.duplicateSymbol "nop")
    ∧ runWith sampleEnv [("nop", 0)] "nop" ≠ runWith sampleEnv [] "nop" :=
  ⟨by rfl, by rfl, by rfl, by
    intro hx
    have h1 : runWith sampleEnv [("nop", 0)] "nop" = .error (.duplicateSymbol "nop") := by rfl
    have h2 : runWith sampleEnv [] "nop" = .ok "00000000: 00000000" := by rfl
    rw [h1, h2] at hx
    exact Except.noConfusion hx⟩

/-- One classified line leaves the inherited table underneath whatever it
adds. -/
theorem classifyLine_tab_extends (env : Env) (tab : SymTab) (a : Nat) (line : String)
    (s : Stmt) (tab1 : SymTab) (a1 : Nat)
    (h : classifyLine env tab a line = .ok (some (s, tab1, a1))) :
    ∃ added : SymTab, tab1 = added ++ tab := by
  simp only [classifyLine] at h
  repeat' split at h
  all_goals cases h
  all_goals first
    | exact ⟨[], rfl⟩
    | exact ⟨[_], rfl⟩

/-- C3 amended: the engine never resets the SymbolTable.  The first pass
starts from whatever table earlier invocations left and only prepends new
label bindings to it, so every inherited entry is still present afterwards;
the output of an invocation is a deterministic function of the source text
together with that inherited table, and only an invocation from the empty
table is a function of the text alone. -/
theorem C3_symtab_persists (env : Env) (lines : List String) :
    ∀ (tab : SymTab) (a : Nat) (stmts : List Stmt) (tabf : SymTab) (trace : List Nat),
    firstpassGo env lines tab a = .ok (stmts, tabf, trace) →
    ∃ added : SymTab, tabf = added ++ tab := by
  induction lines with
  | nil =>
    intro tab a stmts tabf trace h
    simp only [firstpassGo] at h
    cases h
    exact ⟨[], rfl⟩
  | cons line rest ih =>
    intro tab a stmts tabf trace h
    simp only [firstpassGo] at h
    split at h
    · cases h
    · exact ih _ _ _ _ _ h
    · rename_i s tab1 a1 hcl
      split at h
      · cases h
      · rename_i trip hrec
        cases h
        obtain ⟨add1, ha1⟩ := classifyLine_tab_extends env tab a line s tab1 a1 hcl
        obtain ⟨add2, ha2⟩ := ih _ _ _ _ _ hrec
        exact ⟨add2 ++ add1, by rw [ha2, ha1, List.append_assoc]⟩

/-- Witness for the amended C3: running "nop:" from the inherited one-entry
table keeps that entry underneath the new binding. -/
theorem C3_witness :
    firstpassGo sampleEnv ["nop:"] [("x", 7)] 0
      = .ok ([Stmt.instr (.ityp 0 0 0 (.lit 0))], [("nop", 0), ("x", 7)], [0])
    ∧ ∃ added : SymTab, [("nop", 0), ("x", 7)] = added ++ [("x", 7)] :=
  ⟨by rfl,
   C3_symtab_persists sampleEnv ["nop:"] [("x", 7)] 0
     [Stmt.instr (.ityp 0 0 0 (.lit 0))] [("nop", 0), ("x", 7)] [0] (by rfl)⟩

/-- Folding additions of mapped values equals the accumulator plus the sum
of the mapped list. -/
theorem foldl_add_map (f : String → Nat) (args : List String) :
    ∀ acc : Nat, args.foldl (fun b w => b + f w) acc = acc + (args.map f).sum := by
  induction args with
  | nil => intro acc; simp
  | cons w rest ih =>
    intro acc
    simp only [List.foldl_cons, List.map_cons, List.sum_cons, ih]
    omega

/-- The .asciiz byte length is the sum of stripped length plus one per
argument. -/
theorem asciizByteLength_sum (args : List String) :
    asciizByteLength args = (args.map fun w => (stripQuotes w).length + 1).sum := by
  unfold asciizByteLength
  rw [foldl_add_map]
  simp

/-- The .asciiz address list has one more entry than there are strings. -/
theorem asciizAddrs_length (args : List String) (a : Nat) :
    (asciizAddrs args a).length = args.length + 1 := by
  induction args generalizing a with
  | nil => rfl
  | cons w rest ih => simp [asciizAddrs, ih]

/-- The .asciiz address list starts at the incoming address. -/
theorem asciizAddrs_headD (args : List String) (a : Nat) :
    (asciizAddrs args a).headD 0 = a := by
  cases args <;> rfl

/-- Entry i of the .asciiz address list is the incoming address plus the
total size of the first i strings. -/
theorem asciizAddrs_getD (args : List String) (a i : Nat) (hi : i ≤ args.length) :
    (asciizAddrs args a).getD i 0
      = a + ((args.map fun w => (stripQuotes w).length + 1).take i).sum := by
  induction args generalizing a i with
  | nil =>
    have hz : i = 0 := by simpa using hi
    subst hz
    simp [asciizAddrs]
  | cons w rest ih =>
    cases i with
    | zero => simp [asciizAddrs]
    | succ j =>
      have hj : j ≤ rest.length := by simpa using hi
      simp only [asciizAddrs, List.getD_cons_succ, List.map_cons, List.take_succ_cons,
        List.sum_cons]
      rw [ih _ _ hj]
      omega

/-- A zip is unchanged when the longer left list is cut to the length of
the right list. -/
theorem zip_eq_zip_take (l1 : List Nat) (l2 : List String) (h : l2.length ≤ l1.length) :
    l1.zip l2 = (l1.take l2.length).zip l2 := by
  induction l1 generalizing l2 with
  | nil =>
    cases l2 with
    | nil => rfl
    | cons y ys => simp at h
  | cons x xs ih =>
    cases l2 with
    | nil => simp
    | cons y ys =>
      simp only [List.zip_cons_cons, List.length_cons, List.take_succ_cons]
      rw [ih ys (by simpa using h)]

/-- The second pass on one .asciiz statement stamps the i-th emitted hex
string with the i-th per-item address; the zip drops the surplus final
address slot. -/
theorem asciiz_secondpass (env : Env) (tab : SymTab) (args : List String) (a : Nat)
    (h : args ≠ []) :
    secondpassGo env tab [.dir (.asciiz args)] a
      = .ok ((((asciizAddrs args a).take args.length).zip
          (args.map fun w => hexlifyz (stripQuotes w))).map
            fun p => hex8 p.1 ++ ": " ++ p.2) := by
  have hlen : (args.map fun w => hexlifyz (stripQuotes w)).length ≤ (asciizAddrs args a).length := by
    simp [asciizAddrs_length]
  have hzip := zip_eq_zip_take (asciizAddrs args a) (args.map fun w => hexlifyz (stripQuotes w)) hlen
  have hne : (args.map fun w => hexlifyz (stripQuotes w)).isEmpty = false := by
    cases args with
    | nil => exact absurd rfl h
    | cons w rest => rfl
  simp only [secondpassGo, stmtLines, stmtEncode, Directive.encode, Stmt.nextaddressesOf,
    Directive.nextaddresses, pass2Next, Directive.nextaddress, hne]
  rw [hzip]
  simp

/-- C6: for .asciiz with at least one string argument, the per-item address
list has one more slot than there are strings, its first entry is the
incoming address, its i-th entry is the cumulative offset of the first i
strings, the second pass stamps each emitted hex string with the matching
address while ignoring the surplus final slot, and the next address is the
incoming address plus the total of stripped length plus one per string. -/
theorem C6_asciiz_addresses (env : Env) (tab : SymTab) (args : List String) (a : Nat)
    (h : args ≠ []) :
    (asciizAddrs args a).length = args.length + 1
    ∧ (asciizAddrs args a).headD 0 = a
    ∧ (∀ i, i ≤ args.length →
        (asciizAddrs args a).getD i 0
          = a + ((args.map fun w => (stripQuotes w).length + 1).take i).sum)
    ∧ secondpassGo env tab [.dir (.asciiz args)] a
        = .ok ((((asciizAddrs args a).take args.length).zip
            (args.map fun w => hexlifyz (stripQuotes w))).map
              fun p => hex8 p.1 ++ ": " ++ p.2)
    ∧ Directive.nextaddress (.asciiz args) a
        = .ok (a + (args.map fun w => (stripQuotes w).length + 1).sum) := by
  refine ⟨asciizAddrs_length args a, asciizAddrs_headD args a,
    fun i hi => asciizAddrs_getD args a i hi, asciiz_secondpass env tab args a h, ?_⟩
  simp [Directive.nextaddress, asciizByteLength_sum, Nat.add_comm]

/-- Witness for C6 on one quoted two-character string at address sixteen. -/
theorem C6_witness :
    (["\"hi\""] : List String) ≠ []
    ∧ (asciizAddrs ["\"hi\""] 16).length = ["\"hi\""].length + 1
    ∧ Directive.nextaddress (.asciiz ["\"hi\""]) 16
        = .ok (16 + ((["\"hi\""].map fun w => (stripQuotes w).length + 1)).sum) :=
  ⟨by decide,
   (C6_asciiz_addresses sampleEnv [] ["\"hi\""] 16 (by decide)).1,
   (C6_asciiz_addresses sampleEnv [] ["\"hi\""] 16 (by decide)).2.2.2.2⟩

/-- Inversion of one successful second-pass step. -/
theorem secondpassGo_cons_inv (env : Env) (tab : SymTab) (p : Stmt) (rest : List Stmt)
    (a : Nat) (out : List String)
    (h : secondpassGo env tab (p :: rest) a = .ok out) :
    ∃ ls a1 out1, stmtLines env tab p a = .ok ls ∧ pass2Next p a = .ok a1
      ∧ secondpassGo env tab rest a1 = .ok out1 ∧ out = ls ++ out1 := by
  simp only [secondpassGo] at h
  split at h
  · cases h
  · rename_i ls hls
    split at h
    · cases h
    · rename_i a1 ha1
      split at h
      · cases h
      · rename_i out1 hout1
        cases h
        exact ⟨ls, a1, out1, hls, ha1, hout1, rfl⟩

/-- C7: an instruction whose symbolic operand names a label absent from the
SymbolTable fails to encode with the undefined-symbol error, and the second
pass over any statement list that reaches such an instruction aborts with
that error - the run returns no listing at all. -/
theorem C7_undefined_symbol (env : Env) (tab : SymTab) (nm : String) (i : Instr)
    (pre post : List Stmt) (a b : Nat) (ls : List String)
    (hnd : pyIsdigit nm = false) (hlk : symLookup tab nm = none)
    (href : refsSymB i nm = true)
    (hpre : secondpassGo env tab pre a = .ok ls)
    (hfin : pass2Final pre a = .ok b) :
    Instr.encode tab i b = .error (.undefinedSymbol nm)
    ∧ secondpassGo env tab (pre ++ .instr i :: post) a = .error (.undefinedSymbol nm) := by
  have hres : resolveImm tab (.sym nm) = .error (.undefinedSymbol nm) := by
    simp [resolveImm, hnd, hlk]
  have henc : ∀ c : Nat, Instr.encode tab i c = .error (.undefinedSymbol nm) := by
    intro c
    cases i with
    | ityp o r1 rd imm =>
      cases imm with
      | lit v => simp [refsSymB] at href
      | sym s =>
        have hs : s = nm := by simpa [refsSymB] using href
        subst hs
        simp [Instr.encode, hres]
    | branch o r1 rd imm =>
      cases imm with
      | lit v => simp [refsSymB] at href
      | sym s =>
        have hs : s = nm := by simpa [refsSymB] using href
        subst hs
        simp [Instr.encode, hres]
    | jtyp o imm =>
      cases imm with
      | lit v => simp [refsSymB] at href
      | sym s =>
        have hs : s = nm := by simpa [refsSymB] using href
        subst hs
        simp [Instr.encode, hres]
    | ralu o f r1 r2 rd => simp [refsSymB] at href
    | rfpu o f r1 r2 rd => simp [refsSymB] at href
  refine ⟨henc b, ?_⟩
  clear href hnd hlk hres
  induction pre generalizing a ls with
  | nil =>
    simp only [pass2Final] at hfin
    cases hfin
    simp [secondpassGo, stmtLines, stmtEncode, henc, Except.map]
  | cons p pre' ih =>
    obtain ⟨ls1, a1, out1, hls1, ha1, hout1, rfl⟩ :=
      secondpassGo_cons_inv env tab p pre' a ls hpre
    simp only [pass2Final] at hfin
    rw [ha1] at hfin
    have hfin1 : pass2Final pre' a1 = .ok b := hfin
    simp only [List.cons_append, secondpassGo, hls1, ha1, List.append_eq,
      ih a1 out1 hout1 hfin1]

/-- Witness for C7: a jump to the undefined label loop fails the second
pass with the undefined-symbol error. -/
theorem C7_witness :
    pyIsdigit "loop" = false
    ∧ symLookup [] "loop" = none
    ∧ secondpassGo sampleEnv [] [Stmt.instr (.jtyp 2 (.sym "loop"))] 0
        = .error (.undefinedSymbol "loop") :=
  ⟨by decide, by rfl,
   (C7_undefined_symbol sampleEnv [] "loop" (.jtyp 2 (.sym "loop")) [] [] 0 0 []
     (by decide) (by rfl) (by decide) (by rfl) (by rfl)).2⟩
